import Mathlib
set_option linter.unusedSectionVars false

/-!
Verification of the DOS-data core of this repository
(src/ase/spectrum/dosdata.py and src/ase/dft/doscollection.py).

The numeric payload of the Python code (numpy float arrays) is embedded as
lists over a linearly ordered field.  Most claims are settled at the
rational instance, where every operation is executable; the broadening
kernel (which uses exp/sqrt/pi) is embedded over the real numbers.

Python dicts with string keys and string values (the Info metadata) are
embedded as canonical association lists: sorted by key with no duplicate
keys.  Python dict equality is then plain list equality, and dict.items()
is the list itself.

Fallible Python code (raise TypeError / ValueError / IndexError) is
embedded with Except over an explicit error type.
-/

/-- Python exception classes raised by the DOS core. -/
inductive PyErr where
  | typeError : String → PyErr
  | valueError : String → PyErr
  | indexError : String → PyErr
deriving DecidableEq, Repr

/-- Name of the exception class of a raised error, None when no error. -/
def resultErrKind {β : Type _} : Except PyErr β → Option String
  | .error (.typeError _) => some "TypeError"
  | .error (.valueError _) => some "ValueError"
  | .error (.indexError _) => some "IndexError"
  | .ok _ => none

/-- Metadata dict, str to str; canonical form: key-sorted, unique keys. -/
abbrev Info := List (String × String)

/-- Lexicographic comparison of character sequences by code point, the
order Python uses on strings. -/
def charListLtB : List Char → List Char → Bool
  | [], [] => false
  | [], _ :: _ => true
  | _ :: _, [] => false
  | a :: as, b :: bs =>
    if a.toNat = b.toNat then charListLtB as bs
    else decide (a.toNat < b.toNat)

/-- Python string comparison a < b. -/
def strLtB (a b : String) : Bool := charListLtB a.data b.data

/-- ASCII lower-casing of one character, as Python str.lower acts on the
ASCII letters occurring in smearing names. -/
def charLowerB (c : Char) : Char :=
  if 65 ≤ c.toNat ∧ c.toNat ≤ 90 then Char.ofNat (c.toNat + 32) else c

/-- Python str.lower over the characters of the string. -/
def strLower (s : String) : String := ⟨s.data.map charLowerB⟩

/-- Python dict assignment d[k] = v on the canonical representation:
insert in key order, replacing an existing binding of the same key. -/
def infoSet : Info → String → String → Info
  | [], k, v => [(k, v)]
  | (k0, v0) :: rest, k, v =>
    if k = k0 then (k, v) :: rest
    else if strLtB k k0 then (k, v) :: (k0, v0) :: rest
    else (k0, v0) :: infoSet rest k v

/-- Python dict literal built from a list of pairs (a later binding of the
same key wins, as in dict(...) construction). -/
def mkInfo (l : List (String × String)) : Info :=
  l.foldl (fun acc p => infoSet acc p.1 p.2) []

/-- Python dict update d.update(e): every binding of e is written into d. -/
def infoUpdate (d e : Info) : Info :=
  e.foldl (fun acc p => infoSet acc p.1 p.2) d

/-- Intersection of metadata, dict(set(a.items()) & set(b.items())) in the
source: only pairs present identically in both dicts are retained
(RawDOSData.__add__ / GridDOSData.__add__ in src/ase/spectrum/dosdata.py). -/
def infoInter (a b : Info) : Info :=
  a.filter (fun p => decide (p ∈ b))

/-- Sub-dict of the pairs whose key is among the given keys; this embeds the
dict comprehension in DOSCollection.sum_by (src/ase/dft/doscollection.py). -/
def restrictInfo (i : Info) (keys : List String) : Info :=
  i.filter (fun p => decide (p.1 ∈ keys))

/-- Python set.issubset on dict item sets, as used by DOSCollection.select. -/
def subsetB (q i : Info) : Bool :=
  q.all (fun p => decide (p ∈ i))

/-- Python comparison on (str, str) tuples: lexicographic. -/
def pairLtB (p q : String × String) : Bool :=
  if p.1 = q.1 then strLtB p.2 q.2 else strLtB p.1 q.1

/-- Python comparison on tuples of (str, str) tuples: lexicographic. -/
def comboLtB : List (String × String) → List (String × String) → Bool
  | [], [] => false
  | [], _ :: _ => true
  | _ :: _, [] => false
  | p :: ps, q :: qs => if p = q then comboLtB ps qs else pairLtB p q

/-- Insertion step of a stable insertion sort. -/
def insertSorted {β : Type _} (lt : β → β → Bool) (x : β) : List β → List β
  | [] => [x]
  | y :: ys => if lt x y then x :: y :: ys else y :: insertSorted lt x ys

/-- Stable insertion sort; embeds Python's sorted(...) for the orders used
by sum_by (tuples of string pairs, and pairs themselves). -/
def sortByB {β : Type _} (lt : β → β → Bool) : List β → List β
  | [] => []
  | x :: xs => insertSorted lt x (sortByB lt xs)

/-- Deduplication; embeds the use of Python set(...) that is immediately
followed by sorted(...), where only the underlying set matters. -/
def dedupB {β : Type _} [DecidableEq β] : List β → List β
  | [] => []
  | x :: xs => if x ∈ xs then dedupB xs else x :: dedupB xs

/-- Canonical-form invariant of the Info embedding: keys strictly sorted.
Every dict reachable in the Python code satisfies it (dicts cannot hold a
key twice, and the order of a canonical association list is unique). -/
def InfoCanon (i : Info) : Prop :=
  List.Pairwise (fun p q : String × String => strLtB p.1 q.1 = true) i

variable {α : Type} [LinearOrderedField α]

/-- Default absolute tolerance of np.allclose (atol = 1e-8). -/
def npAtol : α := 1 / 100000000

/-- Default relative tolerance of np.allclose (rtol = 1e-5). -/
def npRtol : α := 1 / 100000

/-- Elementwise closeness test of np.allclose: abs(a - b) <= atol + rtol * abs(b). -/
def closeB (a b : α) : Bool :=
  decide (|a - b| ≤ npAtol + npRtol * |b|)

/-- np.allclose on 1-D arrays: equal lengths compared elementwise, or a
length-1 operand broadcast against the other.  (On shapes numpy cannot
broadcast it raises; such calls are unreachable from the embedded code,
whose call sites either check lengths first or compare equal-length data.) -/
def allcloseB (xs ys : List α) : Bool :=
  (xs.length == ys.length && (xs.zip ys).all fun p => closeB p.1 p.2)
  || (match xs with
      | [x] => ys.all fun y => closeB x y
      | _ => false)
  || (match ys with
      | [y] => xs.all fun x => closeB x y
      | _ => false)

/-- np.linspace(a, b, n): n evenly spaced points from a to b inclusive. -/
def linspace (a b : α) (n : ℕ) : List α :=
  match n with
  | 0 => []
  | 1 => [a]
  | m + 2 =>
    (List.range (m + 2)).map fun i =>
      a + (i : α) * (b - a) / (((m + 2 : ℕ) : α) - 1)

/-- Concrete variant of a DOSData entity (RawDOSData or GridDOSData). -/
inductive DKind where
  | raw
  | grid
deriving DecidableEq, Repr

/-- A single DOS series: energies, weights and metadata
(GeneralDOSData stores the numbers as a 2 x n array; two equal-length
lists embed the same data). -/
structure DOSData (α : Type) where
  kind : DKind
  energies : List α
  weights : List α
  info : Info
deriving DecidableEq, Repr

/-- The evenly-spaced-grid validation of GridDOSData.__init__:
np.allclose(energies, np.linspace(energies[0], energies[-1], n_entries)).
The caller guarantees energies is non-empty (indexing an empty array
raises IndexError before this test). -/
def evenGridB (energies : List α) : Bool :=
  allcloseB energies
    (linspace (energies.headD 0) (energies.getLastD 0) energies.length)

/-- RawDOSData construction: GeneralDOSData.__init__ checks that energies
and weights have the same length, else ValueError. -/
def mkRaw (energies weights : List α) (info : Info) :
    Except PyErr (DOSData α) :=
  if weights.length = energies.length then
    .ok ⟨.raw, energies, weights, info⟩
  else .error (.valueError "Energies and weights must be the same length")

/-- GridDOSData construction: reads energies[0] and energies[-1]
(IndexError on an empty array), validates the evenly-spaced grid
(ValueError), then the length match, first in GridDOSData.__init__ and
again in GeneralDOSData.__init__ (ValueError). -/
def mkGrid (energies weights : List α) (info : Info) :
    Except PyErr (DOSData α) :=
  match energies with
  | [] => .error (.indexError "index 0 is out of bounds for axis 0 with size 0")
  | _ :: _ =>
    if evenGridB energies then
      if weights.length = energies.length then
        .ok ⟨.grid, energies, weights, info⟩
      else .error (.valueError "Energies and weights must be the same length")
    else .error (.valueError "Energies must be an evenly-spaced 1-D grid")

/-- GeneralDOSData.copy: rebuilds an entity of the same concrete variant
from copies of the stored data and a copy of the info dict, through that
variant's constructor (and hence through its validation). -/
def copyE (d : DOSData α) : Except PyErr (DOSData α) :=
  match d.kind with
  | .raw => mkRaw d.energies d.weights d.info
  | .grid => mkGrid d.energies d.weights d.info

/-- The + operator on DOSData, dispatched on the concrete variant.
RawDOSData.__add__: only RawDOSData allowed (TypeError otherwise);
energies/weights concatenated, info intersected.
GridDOSData.__add__: only GridDOSData allowed (TypeError otherwise);
energy grids must have equal length and be numerically close (ValueError
otherwise); weights summed elementwise, info intersected, result built
through the GridDOSData constructor. -/
def addE (a b : DOSData α) : Except PyErr (DOSData α) :=
  match a.kind with
  | .raw =>
    if b.kind = .raw then
      .ok ⟨.raw, a.energies ++ b.energies, a.weights ++ b.weights,
           infoInter a.info b.info⟩
    else
      .error (.typeError "RawDOSData can only be combined with other RawDOSData objects")
  | .grid =>
    if b.kind = .grid then
      if a.energies.length = b.energies.length then
        if allcloseB a.energies b.energies then
          mkGrid a.energies (List.zipWith (· + ·) a.weights b.weights)
            (infoInter a.info b.info)
        else
          .error (.valueError "Cannot add GridDOSData objects with different energy grids.")
      else
        .error (.valueError "Cannot add GridDOSData objects with different-length energy grids.")
    else
      .error (.typeError "GridDOSData can only be combined with other GridDOSData objects")

/-- Modelled from the spec: doscollection.py imports DOSData from
ase/dft/dosdata.py, a module absent from this tree, and compares entities
with the == operator.  The spec states entity equality is numerically
tolerant on energies and weights and exact on info, which is the
_almost_equals method of src/ase/spectrum/dosdata.py: same concrete
variant, equal info dicts, allclose weights, allclose energies. -/
def almostEqB (a b : DOSData α) : Bool :=
  decide (a.kind = b.kind) && decide (a.info = b.info)
  && allcloseB a.weights b.weights && allcloseB a.energies b.energies

/-- Stored-data invariant of a DOSData entity: as many weights as energies. -/
def WFlen (d : DOSData α) : Prop :=
  d.energies.length = d.weights.length

/-- Concrete variant of a collection (DOSCollection, RawDOSCollection,
GridDOSCollection). -/
inductive CollKind where
  | generic
  | rawK
  | gridK
deriving DecidableEq, Repr

/-- isinstance(x, C) on collection classes: RawDOSCollection and
GridDOSCollection are subclasses of DOSCollection. -/
def subkindLEB (sub sup : CollKind) : Bool :=
  decide (sub = sup) || decide (sup = .generic)

/-- A collection of DOSData entities.  The entries field holds the
entities the collection yields under iteration and integer indexing: the
stored list for the list-backed variants, and the on-demand synthesized
GridDOSData views for GridDOSCollection. -/
structure DOSColl (α : Type) where
  kind : CollKind
  entries : List (DOSData α)
deriving DecidableEq, Repr

/-- Internal storage of GridDOSCollection: one shared energy axis, a
2-D weights matrix (one row per series), and per-row info dicts. -/
structure GridStore (α : Type) where
  energies : List α
  weights : List (List α)
  infos : List Info
deriving DecidableEq, Repr

/-- Effectful list comprehension over fallible code: the first raised
exception propagates, otherwise the list of results is returned. -/
def mapME {β γ : Type _} (f : β → Except PyErr γ) : List β → Except PyErr (List γ)
  | [] => .ok []
  | x :: xs => f x >>= fun y => (mapME f xs).map (y :: ·)

/-- GridDOSCollection.__init__: reads the first entity's energy axis
(IndexError on an empty input), then for each entity checks it is
GridDOSData (TypeError) and that its axis has the shape of and is
numerically close to the shared axis (ValueError), storing its weights row
and its info dict. -/
def gridInit (dosSeries : List (DOSData α)) : Except PyErr (GridStore α) :=
  match dosSeries with
  | [] => .error (.indexError "list index out of range")
  | d0 :: _ =>
    let energies := d0.energies
    (mapME (fun d =>
      if d.kind = .grid then
        if d.energies.length = energies.length && allcloseB d.energies energies then
          pure (d.weights, d.info)
        else
          Except.error (.valueError "All GridDOSData objects in GridDOSCollection must have the same energy axis.")
      else
        Except.error (.typeError "GridDOSCollection can only store GridDOSData objects."))
      dosSeries).map fun rows =>
      ⟨energies, rows.map Prod.fst, rows.map Prod.snd⟩

/-- GridDOSCollection.__getitem__ with an integer index, for every valid
row: a GridDOSData synthesized from the shared axis, that row of the
weights matrix and that row's info dict.  (The GridDOSData constructor
validation passes for any axis accepted at collection construction.) -/
def gridViews (g : GridStore α) : List (DOSData α) :=
  (g.weights.zip g.infos).map fun p => ⟨.grid, g.energies, p.1, p.2⟩

/-- type(self)(entities) on a collection: DOSCollection wraps the list;
RawDOSCollection.__init__ additionally requires every entity to be
RawDOSData (TypeError); GridDOSCollection.__init__ validates and re-packs
the entities into shared-axis storage, from which iteration yields the
synthesized views. -/
def wrapColl (kind : CollKind) (entities : List (DOSData α)) :
    Except PyErr (DOSColl α) :=
  match kind with
  | .generic => .ok ⟨.generic, entities⟩
  | .rawK =>
    if entities.all fun d => decide (d.kind = .raw) then
      .ok ⟨.rawK, entities⟩
    else .error (.typeError "RawDOSCollection can only store RawDOSData objects.")
  | .gridK => (gridInit entities).map fun g => ⟨.gridK, gridViews g⟩

/-- DOSCollection.sum_all: IndexError on an empty collection, a copy of
the single entry of a 1-entry collection, and otherwise the left fold of
the + operator over the entries. -/
def sumAllL (l : List (DOSData α)) : Except PyErr (DOSData α) :=
  match l with
  | [] => .error (.indexError "No data to sum")
  | [d] => copyE d
  | d :: rest => rest.foldlM addE d

/-- DOSCollection.total: sum_all, then the result's info dict is updated
in place with label = Total. -/
def totalL (l : List (DOSData α)) : Except PyErr (DOSData α) :=
  (sumAllL l).map fun d => { d with info := infoSet d.info "label" "Total" }

/-- DOSCollection.__eq__: isinstance(other, type(self)), then equal
lengths, then all entries pairwise equal.  Entity equality is the
spec-modelled almostEqB (see there). -/
def collEqB (a b : DOSColl α) : Bool :=
  subkindLEB b.kind a.kind
  && a.entries.length == b.entries.length
  && (a.entries.zip b.entries).all fun p => almostEqB p.1 p.2

/-- DOSCollection.select(**query): the entities whose info item set
contains every query item, wrapped as a collection of the same concrete
variant, or the None sentinel when nothing matches. -/
def selectQ (c : DOSColl α) (query : Info) :
    Except PyErr (Option (DOSColl α)) :=
  let matched := c.entries.filter fun d => subsetB query d.info
  match matched with
  | [] => .ok none
  | _ :: _ => (wrapColl c.kind matched).map some

/-- DOSCollection._sum_all_safely: ValueError on the None sentinel, else
sum_all of the selection. -/
def sumAllSafely (sel : Option (DOSColl α)) : Except PyErr (DOSData α) :=
  match sel with
  | none => .error (.valueError "Something went wrong assembling sum groups")
  | some s => sumAllL s.entries

/-- DOSCollection.sum_by(*keys): per entity, the tuple of the sorted item
set of its info restricted to the grouping keys; the sorted set of those
tuples; for each tuple, select with the tuple's pairs as the query and
sum the selection; wrap the sums as a collection of the same variant. -/
def sumBy (c : DOSColl α) (keys : List String) : Except PyErr (DOSColl α) :=
  let allCombos := c.entries.map fun d =>
    sortByB pairLtB (dedupB (restrictInfo d.info keys))
  let uniqueCombos := sortByB comboLtB (dedupB allCombos)
  (mapME (fun combo => selectQ c combo >>= sumAllSafely) uniqueCombos)
    >>= fun collectionData => wrapColl c.kind collectionData

/-- DOSData._delta: a Gaussian kernel centered at x0, evaluated over the
target energies; any smearing name other than gauss (case-insensitive) is
rejected with ValueError. -/
noncomputable def deltaE (x : List ℝ) (x0 width : ℝ) (smearing : String) :
    Except PyErr (List ℝ) :=
  if strLower smearing = "gauss" then
    .ok (x.map fun xi =>
      Real.exp (-(1 / 2) * ((xi - x0) / width) ^ 2)
        / (Real.sqrt (2 * Real.pi) * width))
  else .error (.valueError "Requested smearing type not recognized.")

/-- DOSData._check_positive_width: ValueError when width <= 0. -/
noncomputable def checkPositiveWidth (width : ℝ) : Except PyErr Unit :=
  if width ≤ 0 then
    .error (.valueError "Cannot add 0 or negative width smearing")
  else .ok ()

/-- The accumulation loop of DOSData._sample: for each stored
(raw energy, weight) pair in order, the kernel centered at the raw
energy is scaled by the weight and added to the accumulator. -/
noncomputable def sampleLoop (energies : List ℝ) (width : ℝ)
    (smearing : String) : List (ℝ × ℝ) → List ℝ → Except PyErr (List ℝ)
  | [], acc => .ok acc
  | p :: ps, acc =>
    deltaE energies p.1 width smearing >>= fun d =>
      sampleLoop energies width smearing ps
        (List.zipWith (fun a b => a + p.2 * b) acc d)

/-- DOSData._sample over stored (energies, weights) data: after the width
check, runs the accumulation loop from a zero accumulator over the
target grid. -/
noncomputable def baseSample (storedE storedW : List ℝ) (energies : List ℝ)
    (width : ℝ) (smearing : String) : Except PyErr (List ℝ) :=
  checkPositiveWidth width >>= fun _ =>
    sampleLoop energies width smearing (storedE.zip storedW)
      (energies.map fun _ => (0 : ℝ))

/-- GridDOSData._sample: _check_spacing first reads the difference of the
first two stored energies (IndexError when fewer than two grid points)
and records the non-fatal undersampling warning when width is below twice
that spacing; the base-class sample is then multiplied by the spacing.
The Bool component reports whether the warning was emitted. -/
noncomputable def gridSampleFull (storedE storedW : List ℝ)
    (energies : List ℝ) (width : ℝ) (smearing : String) :
    Except PyErr (List ℝ × Bool) :=
  match storedE with
  | e0 :: e1 :: _ => do
    let spacing := e1 - e0
    let warned := decide (width < 2 * spacing)
    let r ← baseSample storedE storedW energies width smearing
    pure (r.map (· * spacing), warned)
  | _ => .error (.indexError "index 1 is out of bounds for axis 1")

/-- The per-entity sampling method, dispatched on the concrete variant:
RawDOSData inherits the base DOSData._sample, GridDOSData overrides it
with the spacing-scaled version. -/
noncomputable def entitySample (d : DOSData ℝ) (energies : List ℝ)
    (width : ℝ) (smearing : String) : Except PyErr (List ℝ) :=
  match d.kind with
  | .raw => baseSample d.energies d.weights energies width smearing
  | .grid =>
    (gridSampleFull d.energies d.weights energies width smearing).map Prod.fst

/-- DOSCollection.sample: one sampled row per contained entity, in
order, as a 2-D array.  Modelled from the spec: the per-entity call in
src/ase/dft/doscollection.py resolves through ase/dft/dosdata.py, a
module absent from this tree; per the spec each row is sampled via the
entity's own _sample contract, which entitySample embeds from
src/ase/spectrum/dosdata.py. -/
noncomputable def collSample (ds : List (DOSData ℝ)) (energies : List ℝ)
    (width : ℝ) (smearing : String) : Except PyErr (List (List ℝ)) :=
  mapME (fun d => entitySample d energies width smearing) ds

/-- Default for an unspecified xmin in sample_grid:
min(self.get_energies()) - padding * width; min of an empty sequence
raises ValueError. -/
noncomputable def resolveMin (xmin : Option ℝ) (energies : List ℝ)
    (padding width : ℝ) : Except PyErr ℝ :=
  match xmin with
  | some v => .ok v
  | none =>
    match energies with
    | [] => .error (.valueError "min() arg is an empty sequence")
    | e :: es => .ok (es.foldl min e - padding * width)

/-- Default for an unspecified xmax in sample_grid:
max(self.get_energies()) + padding * width; max of an empty sequence
raises ValueError. -/
noncomputable def resolveMax (xmax : Option ℝ) (energies : List ℝ)
    (padding width : ℝ) : Except PyErr ℝ :=
  match xmax with
  | some v => .ok v
  | none =>
    match energies with
    | [] => .error (.valueError "max() arg is an empty sequence")
    | e :: es => .ok (es.foldl max e + padding * width)

/-- DOSData.sample_grid: defaults xmin and xmax to the stored energy range
padded by padding * width, samples onto a linspace grid of npts points
with the entity's own _sample, and wraps the result as a new GridDOSData
with a copy of the entity's info. -/
noncomputable def sampleGridE (d : DOSData ℝ) (npts : ℕ)
    (xmin xmax : Option ℝ) (padding width : ℝ) (smearing : String) :
    Except PyErr (DOSData ℝ) :=
  resolveMin xmin d.energies padding width >>= fun lo =>
  resolveMax xmax d.energies padding width >>= fun hi =>
  let energiesGrid := linspace lo hi npts
  entitySample d energiesGrid width smearing >>= fun weightsGrid =>
  mkGrid energiesGrid weightsGrid d.info

/-- The DOSData entities produced by the operations of the data layer:
construction of either variant, copy, the + combination, and
sample_grid, each applied to previously produced entities. -/
inductive Produced : DOSData ℝ → Prop where
  | ofMkRaw : ∀ es ws i d, mkRaw es ws i = .ok d → Produced d
  | ofMkGrid : ∀ es ws i d, mkGrid es ws i = .ok d → Produced d
  | ofCopy : ∀ d d2, Produced d → copyE d = .ok d2 → Produced d2
  | ofAdd : ∀ a b c, Produced a → Produced b → addE a b = .ok c → Produced c
  | ofSampleGrid : ∀ d npts xmin xmax padding width smearing g,
      Produced d →
      sampleGridE d npts xmin xmax padding width smearing = .ok g →
      Produced g

/-- A heap of Python dict objects; a dict-valued attribute holds a
reference (an index) into the heap. -/
abbrev InfoHeap := List Info

/-- A DOSData entity whose info attribute is a dict reference, as stored
by DOSData.__init__ (self.info = info keeps the caller's dict object). -/
structure DOSDataRef (α : Type) where
  kind : DKind
  energies : List α
  weights : List α
  infoRef : ℕ
deriving DecidableEq, Repr

/-- GridDOSCollection storage with explicit dict references: the shared
axis, the weights matrix, and the list of references to the per-row info
dicts appended by __init__ (self._info.append(dos_data.info)). -/
structure GridStoreRef (α : Type) where
  energies : List α
  weights : List (List α)
  infoRefs : List ℕ
deriving DecidableEq, Repr

/-- GridDOSData construction in the reference model: the numeric
validation of mkGrid, with the info argument kept as the same dict
reference the caller passed (no copy is taken). -/
def mkGridRef (energies weights : List α) (r : ℕ) :
    Except PyErr (DOSDataRef α) :=
  match energies with
  | [] => .error (.indexError "index 0 is out of bounds for axis 0 with size 0")
  | _ :: _ =>
    if evenGridB energies then
      if weights.length = energies.length then
        .ok ⟨.grid, energies, weights, r⟩
      else .error (.valueError "Energies and weights must be the same length")
    else .error (.valueError "Energies must be an evenly-spaced 1-D grid")

/-- GridDOSCollection.__getitem__ with an integer index, in the reference
model: reads the weights row and the stored info reference at that index
(IndexError out of bounds), and synthesizes a fresh GridDOSData around
the shared axis, the row, and that same stored dict reference. -/
def gridGetItemH (c : GridStoreRef α) (i : ℕ) :
    Except PyErr (DOSDataRef α) :=
  match c.weights.get? i, c.infoRefs.get? i with
  | some row, some r => mkGridRef c.energies row r
  | _, _ => .error (.indexError "index out of bounds")

/-- Python dict mutation entity.info[k] = v: updates the heap cell the
reference points at. -/
def heapSetItem (σ : InfoHeap) (r : ℕ) (k v : String) : InfoHeap :=
  σ.set r (infoSet ((σ.get? r).getD []) k v)

/-- The collection's stored metadata for row i, read from the heap. -/
def readStoredInfo (σ : InfoHeap) (c : GridStoreRef α) (i : ℕ) :
    Option Info :=
  (c.infoRefs.get? i).bind fun r => σ.get? r

/-- The info dict of an extracted entity, read from the heap. -/
def readEntityInfo (σ : InfoHeap) (e : DOSDataRef α) : Option Info :=
  σ.get? e.infoRef

/-- Spec-side description for the grouped-summation claim: the distinct
restricted sub-mappings of the entities' info dicts over the grouping
keys, in sorted order. -/
def groupCombos (l : List (DOSData α)) (keys : List String) : List Info :=
  sortByB comboLtB (dedupB (l.map fun d => restrictInfo d.info keys))

/-- Spec-side description for the grouped-summation claim: the entities
whose info item set contains the given restricted sub-mapping. -/
def groupEntities (l : List (DOSData α)) (combo : Info) : List (DOSData α) :=
  l.filter fun d => subsetB combo d.info

/-- Entities as the data-layer constructors can produce them: equal-length
stored sequences and, for GridDOSData, a non-empty axis passing the
evenly-spaced validation. -/
def ValidE (d : DOSData α) : Prop :=
  d.energies.length = d.weights.length
  ∧ (d.kind = .grid → (d.energies ≠ [] ∧ evenGridB d.energies = true))

/-- The storage invariants of the collection variants, as construction
establishes them: a generic DOSCollection holds any entities; a
RawDOSCollection holds only RawDOSData; the entities a GridDOSCollection
yields are synthesized views, all GridDOSData carrying the one stored
energy axis. -/
def CollWF : CollKind → List (DOSData α) → Prop
  | .generic, _ => True
  | .rawK, l => ∀ d ∈ l, d.kind = .raw
  | .gridK, l => ∃ es, ∀ d ∈ l, d.kind = .grid ∧ d.energies = es

theorem closeB_self (a : α) : closeB a a = true := by
  simp only [closeB, decide_eq_true_eq]
  rw [sub_self, abs_zero]
  have h1 : (0 : α) ≤ npAtol := by norm_num [npAtol]
  have h2 : (0 : α) ≤ npRtol := by norm_num [npRtol]
  exact add_nonneg h1 (mul_nonneg h2 (abs_nonneg a))

theorem zip_self_all_closeB (l : List α) :
    ((l.zip l).all fun p => closeB p.1 p.2) = true := by
  induction l with
  | nil => rfl
  | cons x xs ih => simp [List.zip_cons_cons, List.all_cons, closeB_self, ih]

theorem allcloseB_refl (l : List α) : allcloseB l l = true := by
  simp [allcloseB, zip_self_all_closeB]

theorem except_bind_ok {ε β γ : Type _} {x : Except ε β} {f : β → Except ε γ}
    {c : γ} (h : x >>= f = .ok c) : ∃ b, x = .ok b ∧ f b = .ok c := by
  cases x with
  | error e => exact absurd h (by simp [Bind.bind, Except.bind])
  | ok b => exact ⟨b, rfl, by simpa [Bind.bind, Except.bind] using h⟩

theorem mkRaw_ok_wf {es ws : List α} {i : Info} {d : DOSData α}
    (h : mkRaw es ws i = .ok d) : WFlen d := by
  unfold mkRaw at h
  split at h
  · cases h
    exact (by assumption : ws.length = es.length).symm
  · cases h

theorem mkGrid_ok_wf {es ws : List α} {i : Info} {d : DOSData α}
    (h : mkGrid es ws i = .ok d) : WFlen d := by
  unfold mkGrid at h
  split at h
  · cases h
  · split at h
    · split at h
      · cases h
        exact (by assumption : ws.length = _).symm
      · cases h
    · cases h

/-- C10: constructing a GridDOSCollection from an empty iterable of
entities raises an IndexError (the first element's energy axis is read
before any type or axis validation occurs), an error outside the
TypeError/ValueError classes assigned to restricted-collection
construction failures. -/
theorem c10_grid_collection_empty_indexerror :
    gridInit ([] : List (DOSData ℚ))
      = .error (.indexError "list index out of range")
    ∧ resultErrKind (gridInit ([] : List (DOSData ℚ))) ≠ some "TypeError"
    ∧ resultErrKind (gridInit ([] : List (DOSData ℚ))) ≠ some "ValueError" :=
  ⟨rfl, by decide, by decide⟩

/-- C3 counterexample: summing an empty collection fails with an
IndexError-class condition, not the ValueError class the claim states;
total() propagates the same IndexError. -/
theorem c3_counterexample :
    resultErrKind (sumAllL ([] : List (DOSData ℚ))) = some "IndexError"
    ∧ resultErrKind (sumAllL ([] : List (DOSData ℚ))) ≠ some "ValueError"
    ∧ resultErrKind (totalL ([] : List (DOSData ℚ))) ≠ some "ValueError" :=
  ⟨rfl, by decide, by decide⟩

/-- C3 (amended): for every collection with zero contained entities,
sum_all() (and hence total(), which delegates to it) fails with an
IndexError-class condition carrying the message "No data to sum". -/
theorem c3_empty_sum_raises_indexerror (l : List (DOSData α))
    (h : l.length = 0) :
    sumAllL l = .error (.indexError "No data to sum")
    ∧ totalL l = .error (.indexError "No data to sum") := by
  rw [List.length_eq_zero] at h
  subst h
  exact ⟨rfl, rfl⟩

/-- Witness for the amended C3 theorem at the empty rational collection. -/
theorem c3_witness :
    sumAllL ([] : List (DOSData ℚ)) = .error (.indexError "No data to sum")
    ∧ totalL ([] : List (DOSData ℚ)) = .error (.indexError "No data to sum") :=
  c3_empty_sum_raises_indexerror [] rfl

/-- C7: the + operator on two RawDOSData operands concatenates both
energy and weight sequences (no sorting, no deduplication) and the
resulting info holds exactly the key/value pairs present identically in
both operands; combining a RawDOSData with a non-RawDOSData operand
fails with a TypeError. -/
theorem c7_raw_combination (e1 w1 : List α) (i1 : Info)
    (e2 w2 : List α) (i2 : Info) (o : DOSData α) :
    addE ⟨.raw, e1, w1, i1⟩ ⟨.raw, e2, w2, i2⟩
      = .ok ⟨.raw, e1 ++ e2, w1 ++ w2, infoInter i1 i2⟩
    ∧ (∀ p : String × String, p ∈ infoInter i1 i2 ↔ p ∈ i1 ∧ p ∈ i2)
    ∧ (o.kind ≠ .raw →
        ∃ msg, addE ⟨.raw, e1, w1, i1⟩ o = .error (.typeError msg)) := by
  refine ⟨rfl, ?_, ?_⟩
  · intro p
    simp [infoInter, List.mem_filter]
  · intro h
    cases hk : o.kind with
    | raw => exact absurd hk h
    | grid =>
      refine ⟨"RawDOSData can only be combined with other RawDOSData objects", ?_⟩
      simp [addE, hk]

/-- Witness for C7 at the spec's worked example, with the info
intersection evaluated, and a grid operand rejected with TypeError. -/
theorem c7_witness :
    addE (⟨.raw, [1], [2], [("a", "1"), ("b", "1")]⟩ : DOSData ℚ)
        ⟨.raw, [3], [4], [("a", "2"), ("b", "1")]⟩
      = .ok ⟨.raw, [1, 3], [2, 4],
          infoInter [("a", "1"), ("b", "1")] [("a", "2"), ("b", "1")]⟩
    ∧ infoInter [("a", "1"), ("b", "1")] [("a", "2"), ("b", "1")]
      = [("b", "1")]
    ∧ (∃ msg, addE (⟨.raw, [1], [2], [("a", "1"), ("b", "1")]⟩ : DOSData ℚ)
        ⟨.grid, [], [], []⟩ = .error (.typeError msg)) := by
  have h := c7_raw_combination (α := ℚ) [1] [2] [("a", "1"), ("b", "1")]
    [3] [4] [("a", "2"), ("b", "1")] ⟨.grid, [], [], []⟩
  exact ⟨h.1, by decide, h.2.2 (by decide)⟩

/-- C9: every DOSData entity produced by construction, copy(), the +
combination operator, or sample_grid() satisfies the invariant that its
stored energies and weights sequences have equal length. -/
theorem c9_produced_length_invariant (d : DOSData ℝ) (h : Produced d) :
    WFlen d := by
  induction h with
  | ofMkRaw es ws i d hmk => exact mkRaw_ok_wf hmk
  | ofMkGrid es ws i d hmk => exact mkGrid_ok_wf hmk
  | ofCopy d d2 hp hcopy ih =>
    unfold copyE at hcopy
    split at hcopy
    · exact mkRaw_ok_wf hcopy
    · exact mkGrid_ok_wf hcopy
  | ofAdd a b c ha hb hadd iha ihb =>
    unfold addE at hadd
    split at hadd
    · split at hadd
      · cases hadd
        unfold WFlen at iha ihb ⊢
        simp only [List.length_append]
        omega
      · cases hadd
    · split at hadd
      · split at hadd
        · split at hadd
          · exact mkGrid_ok_wf hadd
          · cases hadd
        · cases hadd
      · cases hadd
  | ofSampleGrid d npts xmin xmax padding width smearing g hp hsg ih =>
    unfold sampleGridE at hsg
    obtain ⟨lo, hlo, hsg⟩ := except_bind_ok hsg
    obtain ⟨hi, hhi, hsg⟩ := except_bind_ok hsg
    obtain ⟨wg, hwg, hsg⟩ := except_bind_ok hsg
    exact mkGrid_ok_wf hsg

/-- Witness for C9 at a concretely constructed RawDOSData entity. -/
theorem c9_witness : WFlen (⟨.raw, [0], [1], []⟩ : DOSData ℝ) :=
  c9_produced_length_invariant ⟨.raw, [0], [1], []⟩
    (Produced.ofMkRaw [0] [1] [] _ rfl)

theorem copyE_valid (d : DOSData α) (h : ValidE d) : copyE d = .ok d := by
  obtain ⟨k, es, ws, i⟩ := d
  obtain ⟨hlen, hgrid⟩ := h
  cases k with
  | raw =>
    show mkRaw es ws i = .ok ⟨.raw, es, ws, i⟩
    unfold mkRaw
    rw [if_pos hlen.symm]
  | grid =>
    obtain ⟨hne, heven⟩ := hgrid rfl
    show mkGrid es ws i = .ok ⟨.grid, es, ws, i⟩
    cases es with
    | nil => exact absurd rfl hne
    | cons e0 es2 =>
      unfold mkGrid
      simp only [heven, if_true]
      rw [if_pos (hlen.symm)]

/-- C6 counterexample: total() on a 1-entry collection whose entry has
info a = 1 yields info with both the a binding and label = Total, which
is not the dict holding only label = Total. -/
theorem c6_counterexample :
    totalL [(⟨.raw, [0], [1], [("a", "1")]⟩ : DOSData ℚ)]
      = .ok ⟨.raw, [0], [1], [("a", "1"), ("label", "Total")]⟩
    ∧ ([("a", "1"), ("label", "Total")] : Info) ≠ [("label", "Total")] :=
  ⟨by rfl, by decide⟩

/-- C6 (amended): for every non-empty collection whose first entity is
valid, total() returns the left fold of the + combination algebra over
the contained entities, with the result's info updated so that the key
label maps to Total; keys surviving the intersection algebra (or, for a
single entry, the entry's full copied info) are retained alongside the
label binding rather than replaced by it. -/
theorem c6_total_is_labelled_sum (e : DOSData α) (es : List (DOSData α))
    (h : ValidE e) :
    totalL (e :: es)
      = (es.foldlM addE e).map fun d =>
          { d with info := infoSet d.info "label" "Total" } := by
  unfold totalL
  congr 1
  cases es with
  | nil =>
    show copyE e = _
    rw [copyE_valid e h]
    rfl
  | cons b bs => rfl

/-- Witness for the amended C6 theorem on a concrete 2-entry rational
collection. -/
theorem c6_witness :
    totalL [(⟨.raw, [0], [1], [("a", "1")]⟩ : DOSData ℚ),
            ⟨.raw, [2], [3], [("a", "1"), ("b", "2")]⟩]
      = (([⟨.raw, [2], [3], [("a", "1"), ("b", "2")]⟩] :
          List (DOSData ℚ)).foldlM addE ⟨.raw, [0], [1], [("a", "1")]⟩).map
          (fun d => { d with info := infoSet d.info "label" "Total" }) :=
  c6_total_is_labelled_sum ⟨.raw, [0], [1], [("a", "1")]⟩
    [⟨.raw, [2], [3], [("a", "1"), ("b", "2")]⟩]
    ⟨rfl, fun hk => absurd hk (by decide)⟩

theorem charListLtB_irrefl (l : List Char) : charListLtB l l = false := by
  induction l with
  | nil => rfl
  | cons a as ih => simp [charListLtB, ih]

theorem strLtB_irrefl (s : String) : strLtB s s = false :=
  charListLtB_irrefl s.data

theorem mem_insertSorted {β : Type _} (lt : β → β → Bool) (x y : β)
    (l : List β) : y ∈ insertSorted lt x l ↔ y = x ∨ y ∈ l := by
  induction l with
  | nil => simp [insertSorted]
  | cons z zs ih =>
    rw [insertSorted]
    by_cases h : lt x z = true
    · rw [if_pos h]
      simp
    · rw [if_neg h]
      simp only [List.mem_cons, ih]
      tauto

theorem mem_sortByB {β : Type _} (lt : β → β → Bool) (y : β) (l : List β) :
    y ∈ sortByB lt l ↔ y ∈ l := by
  induction l with
  | nil => simp [sortByB]
  | cons x xs ih => simp [sortByB, mem_insertSorted, ih]

theorem mem_dedupB {β : Type _} [DecidableEq β] (y : β) (l : List β) :
    y ∈ dedupB l ↔ y ∈ l := by
  induction l with
  | nil => simp [dedupB]
  | cons x xs ih =>
    by_cases h : x ∈ xs
    · simp only [dedupB, h, if_true, ih, List.mem_cons]
      constructor
      · exact Or.inr
      · rintro (rfl | hy)
        · exact h
        · exact hy
    · simp [dedupB, h, ih]

theorem insertSorted_of_lt_all {β : Type _} (lt : β → β → Bool) (x : β)
    (l : List β) (h : ∀ y ∈ l, lt x y = true) :
    insertSorted lt x l = x :: l := by
  cases l with
  | nil => rfl
  | cons z zs => simp [insertSorted, h z (List.mem_cons_self z zs)]

theorem sortByB_pairwise_id {β : Type _} (lt : β → β → Bool) (l : List β)
    (h : List.Pairwise (fun a b => lt a b = true) l) : sortByB lt l = l := by
  induction l with
  | nil => rfl
  | cons x xs ih =>
    rw [sortByB, ih h.of_cons,
      insertSorted_of_lt_all lt x xs fun y hy =>
        List.rel_of_pairwise_cons h hy]

theorem dedupB_nodup_id {β : Type _} [DecidableEq β] (l : List β)
    (h : l.Nodup) : dedupB l = l := by
  induction l with
  | nil => rfl
  | cons x xs ih =>
    rw [dedupB]
    rw [if_neg (List.nodup_cons.mp h).1, ih h.of_cons]

theorem infoCanon_pairwise_pairLtB {i : Info} (h : InfoCanon i) :
    List.Pairwise (fun p q => pairLtB p q = true) i := by
  refine h.imp fun {p q} hpq => ?_
  unfold pairLtB
  split
  · rename_i heq
    rw [heq] at hpq
    rw [strLtB_irrefl] at hpq
    cases hpq
  · exact hpq

theorem infoCanon_nodup {i : Info} (h : InfoCanon i) : i.Nodup := by
  refine h.imp fun {p q} hpq => ?_
  intro hput
  rw [hput] at hpq
  rw [strLtB_irrefl] at hpq
  cases hpq

theorem infoCanon_restrict (i : Info) (keys : List String)
    (h : InfoCanon i) : InfoCanon (restrictInfo i keys) :=
  h.sublist (List.filter_sublist i)

theorem combo_of_canon (i : Info) (keys : List String) (h : InfoCanon i) :
    sortByB pairLtB (dedupB (restrictInfo i keys)) = restrictInfo i keys := by
  have hc := infoCanon_restrict i keys h
  rw [dedupB_nodup_id _ (infoCanon_nodup hc),
    sortByB_pairwise_id _ _ (infoCanon_pairwise_pairLtB hc)]

theorem map_congr_mem {β γ : Type _} {f g : β → γ} {l : List β}
    (h : ∀ x ∈ l, f x = g x) : l.map f = l.map g := by
  induction l with
  | nil => rfl
  | cons x xs ih =>
    simp only [List.map_cons, h x (List.mem_cons_self x xs)]
    rw [ih fun y hy => h y (List.mem_cons_of_mem x hy)]

theorem mapME_congr {β γ : Type _} {f g : β → Except PyErr γ}
    {l : List β} (h : ∀ x ∈ l, f x = g x) : mapME f l = mapME g l := by
  induction l with
  | nil => rfl
  | cons x xs ih =>
    rw [mapME, mapME, h x (List.mem_cons_self x xs),
      ih fun y hy => h y (List.mem_cons_of_mem x hy)]

theorem except_bind_ok_fun {β γ : Type _} (x : Except PyErr β)
    (g : β → γ) : (x >>= fun b => Except.ok (g b)) = x.map g := by
  cases x <;> rfl

theorem mapME_ok_of_forall {β γ : Type _} {f : β → Except PyErr γ}
    {g : β → γ} {l : List β} (h : ∀ x ∈ l, f x = .ok (g x)) :
    mapME f l = .ok (l.map g) := by
  induction l with
  | nil => rfl
  | cons x xs ih =>
    rw [mapME, h x (List.mem_cons_self x xs),
      ih fun y hy => h y (List.mem_cons_of_mem x hy)]
    rfl

theorem views_zip_map (es : List α) (l : List (DOSData α))
    (h : ∀ d ∈ l, d.kind = .grid ∧ d.energies = es) :
    ((l.map fun d => d.weights).zip (l.map fun d => d.info)).map
      (fun p => (⟨.grid, es, p.1, p.2⟩ : DOSData α)) = l := by
  induction l with
  | nil => rfl
  | cons d ds ih =>
    simp only [List.map_cons, List.zip_cons_cons]
    rw [ih fun d2 hd2 => h d2 (List.mem_cons_of_mem d hd2)]
    obtain ⟨hk, he⟩ := h d (List.mem_cons_self d ds)
    congr 1
    conv_rhs =>
      rw [show d = (⟨d.kind, d.energies, d.weights, d.info⟩ : DOSData α)
        from rfl]
    rw [hk, he]

theorem gridInit_shared (m : DOSData α) (ms : List (DOSData α))
    (h : ∀ d ∈ m :: ms, d.kind = .grid ∧ d.energies = m.energies) :
    gridInit (m :: ms)
      = .ok ⟨m.energies, (m :: ms).map (fun d => d.weights),
            (m :: ms).map fun d => d.info⟩ := by
  show (mapME (fun d =>
      if d.kind = .grid then
        if d.energies.length = m.energies.length
            && allcloseB d.energies m.energies then
          pure (d.weights, d.info)
        else
          Except.error (.valueError "All GridDOSData objects in GridDOSCollection must have the same energy axis.")
      else
        Except.error (.typeError "GridDOSCollection can only store GridDOSData objects."))
      (m :: ms)).map (fun rows =>
        (⟨m.energies, rows.map Prod.fst, rows.map Prod.snd⟩ : GridStore α))
    = _
  rw [mapME_ok_of_forall (g := fun d => (d.weights, d.info)) ?_]
  · show Except.ok
      (⟨m.energies,
        ((m :: ms).map fun d => (d.weights, d.info)).map Prod.fst,
        ((m :: ms).map fun d => (d.weights, d.info)).map Prod.snd⟩ :
        GridStore α) = _
    rw [List.map_map, List.map_map]
    rfl
  · intro d hd
    obtain ⟨hk, he⟩ := h d hd
    rw [if_pos hk, he]
    simp [allcloseB_refl]
    rfl

theorem wrapColl_wf (kind : CollKind) (m : DOSData α) (ms : List (DOSData α))
    (hwf : CollWF kind (m :: ms)) :
    wrapColl kind (m :: ms) = .ok ⟨kind, m :: ms⟩ := by
  cases kind with
  | generic => rfl
  | rawK =>
    have hall : ((m :: ms).all fun d => decide (d.kind = .raw)) = true :=
      List.all_eq_true.mpr fun d hd => decide_eq_true (hwf d hd)
    unfold wrapColl
    rw [if_pos hall]
  | gridK =>
    obtain ⟨es, hes⟩ := hwf
    have hes2 : ∀ d ∈ m :: ms, d.kind = .grid ∧ d.energies = m.energies :=
      fun d hd =>
        ⟨(hes d hd).1,
         (hes d hd).2.trans ((hes m (List.mem_cons_self m ms)).2).symm⟩
    unfold wrapColl
    rw [gridInit_shared m ms hes2]
    show (Except.ok
      (⟨.gridK, gridViews (⟨m.energies, (m :: ms).map (fun d => d.weights),
        (m :: ms).map fun d => d.info⟩ : GridStore α)⟩ : DOSColl α)
      : Except PyErr (DOSColl α)) = Except.ok ⟨.gridK, m :: ms⟩
    rw [show gridViews (⟨m.energies, (m :: ms).map (fun d => d.weights),
        (m :: ms).map fun d => d.info⟩ : GridStore α)
      = (((m :: ms).map fun d => d.weights).zip
          ((m :: ms).map fun d => d.info)).map
          (fun p => (⟨.grid, m.energies, p.1, p.2⟩ : DOSData α)) from rfl]
    rw [views_zip_map m.energies (m :: ms) hes2]

theorem collWF_filter (kind : CollKind) (l : List (DOSData α))
    (p : DOSData α → Bool) (h : CollWF kind l) :
    CollWF kind (l.filter p) := by
  cases kind with
  | generic => trivial
  | rawK => exact fun d hd => h d (List.mem_filter.mp hd).1
  | gridK =>
    obtain ⟨es, hes⟩ := h
    exact ⟨es, fun d hd => hes d (List.mem_filter.mp hd).1⟩

theorem selectQ_sumAll (kind : CollKind) (l : List (DOSData α))
    (combo : Info) (hwf : CollWF kind l)
    (hne : ∃ d ∈ l, subsetB combo d.info = true) :
    (selectQ ⟨kind, l⟩ combo >>= sumAllSafely)
      = sumAllL (groupEntities l combo) := by
  obtain ⟨d, hd, hsub⟩ := hne
  have hdf : d ∈ l.filter fun e => subsetB combo e.info :=
    List.mem_filter.mpr ⟨hd, hsub⟩
  have hwff : CollWF kind (l.filter fun e => subsetB combo e.info) :=
    collWF_filter kind l _ hwf
  unfold selectQ groupEntities
  cases hm : l.filter fun e => subsetB combo e.info with
  | nil =>
    rw [hm] at hdf
    cases hdf
  | cons m ms =>
    rw [hm] at hwff
    simp only [hm]
    show ((wrapColl kind (m :: ms)).map some >>= sumAllSafely)
      = sumAllL (m :: ms)
    rw [wrapColl_wf kind m ms hwff]
    rfl

/-- C4 counterexample: with entities whose info dicts are a = 1 and
a = 1, b = 2 and grouping keys a, b, the group of the restricted
sub-mapping a = 1 sums BOTH entities (the second also matches the
selection), not exactly the single entity whose restricted sub-mapping
equals it, so the output is not a partition-wise sum. -/
theorem c4_counterexample :
    sumBy (⟨.generic, [⟨.raw, [0], [1], [("a", "1")]⟩,
        ⟨.raw, [2], [3], [("a", "1"), ("b", "2")]⟩]⟩ : DOSColl ℚ)
        ["a", "b"]
      = .ok ⟨.generic, [⟨.raw, [0, 2], [1, 3], [("a", "1")]⟩,
          ⟨.raw, [2], [3], [("a", "1"), ("b", "2")]⟩]⟩
    ∧ sumAllL [(⟨.raw, [0], [1], [("a", "1")]⟩ : DOSData ℚ)]
      = .ok ⟨.raw, [0], [1], [("a", "1")]⟩
    ∧ (⟨.raw, [0, 2], [1, 3], [("a", "1")]⟩ : DOSData ℚ)
      ≠ ⟨.raw, [0], [1], [("a", "1")]⟩ :=
  ⟨by rfl, by rfl, by decide⟩

/-- C4 (amended): for every collection of any concrete variant —
satisfying its variant's storage invariant (a RawDOSCollection holds
only RawDOSData; a GridDOSCollection yields views sharing the one
stored energy axis) — whose entities carry well-formed info dicts, and
every tuple of grouping keys, sum_by returns one summed entity per
distinct restricted sub-mapping of the entities' info over the keys,
ordered by the sorted restricted-key tuples and wrapped as a collection
of the same concrete variant, where each output entity is the
sum_all() of ALL entities whose info contains that sub-mapping —
entities whose restricted sub-mapping strictly extends another group's
sub-mapping are included in that group's sum as well, so the groups
overlap rather than partition in that case; only when the distinct
restricted sub-mappings are pairwise incomparable (for instance when
every entity carries the same keys) is this the partition-wise sum the
original claim describes. -/
theorem c4_sum_by_groups (kind : CollKind) (l : List (DOSData α))
    (keys : List String) (hcanon : ∀ d ∈ l, InfoCanon d.info)
    (hwf : CollWF kind l) :
    sumBy ⟨kind, l⟩ keys
      = (mapME (fun combo => sumAllL (groupEntities l combo))
          (groupCombos l keys))
          >>= fun ds => wrapColl kind ds := by
  have hmap :
      l.map (fun d => sortByB pairLtB (dedupB (restrictInfo d.info keys)))
        = l.map fun d => restrictInfo d.info keys :=
    map_congr_mem fun d hd => combo_of_canon d.info keys (hcanon d hd)
  have hkey : ∀ combo ∈ groupCombos l keys,
      (selectQ ⟨kind, l⟩ combo >>= sumAllSafely)
        = sumAllL (groupEntities l combo) := by
    intro combo hcombo
    apply selectQ_sumAll kind l combo hwf
    rw [groupCombos, mem_sortByB, mem_dedupB, List.mem_map] at hcombo
    obtain ⟨d, hd, rfl⟩ := hcombo
    refine ⟨d, hd, ?_⟩
    rw [subsetB, List.all_eq_true]
    intro p hp
    exact decide_eq_true (List.mem_filter.mp hp).1
  show (mapME (fun combo => selectQ ⟨kind, l⟩ combo >>= sumAllSafely)
      (sortByB comboLtB (dedupB
        (l.map fun d => sortByB pairLtB (dedupB (restrictInfo d.info keys)))))
      >>= fun collectionData => wrapColl kind collectionData) = _
  rw [hmap]
  show (mapME (fun combo => selectQ ⟨kind, l⟩ combo >>= sumAllSafely)
      (groupCombos l keys)
      >>= fun collectionData => wrapColl kind collectionData) = _
  rw [mapME_congr hkey]

/-- Witness for the amended C4 theorem on a concrete 1-entry rational
RawDOSCollection. -/
theorem c4_witness :
    sumBy (⟨.rawK, [⟨.raw, [0], [1], [("a", "1")]⟩]⟩ : DOSColl ℚ) ["a"]
      = (mapME (fun combo =>
            sumAllL (groupEntities [⟨.raw, [0], [1], [("a", "1")]⟩] combo))
          (groupCombos [(⟨.raw, [0], [1], [("a", "1")]⟩ : DOSData ℚ)] ["a"]))
          >>= fun ds => wrapColl .rawK ds :=
  c4_sum_by_groups .rawK _ _
    (by
      intro d hd
      rw [List.mem_singleton] at hd
      subst hd
      exact List.pairwise_singleton _ _)
    (by
      intro d hd
      rw [List.mem_singleton] at hd
      subst hd
      rfl)

theorem zip_all_iff_get {β : Type _} (f : β × β → Bool) (l1 l2 : List β)
    (hlen : l1.length = l2.length) :
    ((l1.zip l2).all f = true)
      ↔ ∀ i (h1 : i < l1.length) (h2 : i < l2.length),
          f (l1.get ⟨i, h1⟩, l2.get ⟨i, h2⟩) = true := by
  induction l1 generalizing l2 with
  | nil =>
    cases l2 with
    | nil => simp
    | cons y ys => simp at hlen
  | cons x xs ih =>
    cases l2 with
    | nil => simp at hlen
    | cons y ys =>
      simp only [List.zip_cons_cons, List.all_cons, Bool.and_eq_true]
      rw [ih ys (by simpa using hlen)]
      constructor
      · rintro ⟨hxy, hrest⟩ i h1 h2
        cases i with
        | zero => exact hxy
        | succ n => exact hrest n (by simpa using h1) (by simpa using h2)
      · intro h
        exact ⟨h 0 (by simp) (by simp),
          fun n h1 h2 =>
            h (n + 1) (by simpa using h1) (by simpa using h2)⟩

/-- C5 counterexample: a generic DOSCollection and a RawDOSCollection
with the same single entity compare equal under the == of the code
(isinstance accepts the subclass), although their concrete variants
differ, so equality does not require the same concrete variant. -/
theorem c5_counterexample :
    collEqB (⟨.generic, [⟨.raw, [0], [1], []⟩]⟩ : DOSColl ℚ)
        ⟨.rawK, [⟨.raw, [0], [1], []⟩]⟩ = true
    ∧ (⟨.generic, [⟨.raw, [0], [1], []⟩]⟩ : DOSColl ℚ).kind
      ≠ (⟨.rawK, [⟨.raw, [0], [1], []⟩]⟩ : DOSColl ℚ).kind := by
  constructor
  · simp [collEqB, subkindLEB, almostEqB, allcloseB_refl]
  · decide

/-- C5 (amended): collection equality a == b holds exactly when b's
concrete variant is the same as or a subclass of a's (so a generic
collection can equal a restricted one, and the comparison is not
symmetric), the lengths agree, and the entities are pairwise equal,
entity equality being numerically tolerant (np.allclose) on energies
and weights, exact on info, and requiring the same entity variant. -/
theorem c5_coll_eq_iff (a b : DOSColl α) :
    collEqB a b = true
      ↔ (subkindLEB b.kind a.kind = true
          ∧ a.entries.length = b.entries.length
          ∧ ∀ i (h1 : i < a.entries.length) (h2 : i < b.entries.length),
              (a.entries.get ⟨i, h1⟩).kind = (b.entries.get ⟨i, h2⟩).kind
              ∧ (a.entries.get ⟨i, h1⟩).info = (b.entries.get ⟨i, h2⟩).info
              ∧ allcloseB (a.entries.get ⟨i, h1⟩).weights
                  (b.entries.get ⟨i, h2⟩).weights = true
              ∧ allcloseB (a.entries.get ⟨i, h1⟩).energies
                  (b.entries.get ⟨i, h2⟩).energies = true) := by
  unfold collEqB
  simp only [Bool.and_eq_true, beq_iff_eq]
  constructor
  · rintro ⟨⟨hsub, hlen⟩, hall⟩
    refine ⟨hsub, hlen, fun i h1 h2 => ?_⟩
    have h3 := (zip_all_iff_get _ _ _ hlen).mp hall i h1 h2
    simp only [almostEqB, Bool.and_eq_true, decide_eq_true_eq] at h3
    tauto
  · rintro ⟨hsub, hlen, hidx⟩
    refine ⟨⟨hsub, hlen⟩, (zip_all_iff_get _ _ _ hlen).mpr fun i h1 h2 => ?_⟩
    have h3 := hidx i h1 h2
    simp only [almostEqB, Bool.and_eq_true, decide_eq_true_eq]
    tauto

/-- Witness for the amended C5 theorem: the equality characterization
instantiated at a concrete pair of rational collections. -/
theorem c5_witness :
    collEqB (⟨.generic, [⟨.raw, [0], [1], []⟩]⟩ : DOSColl ℚ)
        ⟨.rawK, [⟨.raw, [0], [1], []⟩]⟩ = true
      ↔ (subkindLEB CollKind.rawK CollKind.generic = true
          ∧ ([(⟨.raw, [0], [1], []⟩ : DOSData ℚ)]).length
            = ([(⟨.raw, [0], [1], []⟩ : DOSData ℚ)]).length
          ∧ ∀ i (h1 : i < ([(⟨.raw, [0], [1], []⟩ : DOSData ℚ)]).length)
              (h2 : i < ([(⟨.raw, [0], [1], []⟩ : DOSData ℚ)]).length),
              (([(⟨.raw, [0], [1], []⟩ : DOSData ℚ)]).get ⟨i, h1⟩).kind
                = (([(⟨.raw, [0], [1], []⟩ : DOSData ℚ)]).get ⟨i, h2⟩).kind
              ∧ (([(⟨.raw, [0], [1], []⟩ : DOSData ℚ)]).get ⟨i, h1⟩).info
                = (([(⟨.raw, [0], [1], []⟩ : DOSData ℚ)]).get ⟨i, h2⟩).info
              ∧ allcloseB
                  (([(⟨.raw, [0], [1], []⟩ : DOSData ℚ)]).get ⟨i, h1⟩).weights
                  (([(⟨.raw, [0], [1], []⟩ : DOSData ℚ)]).get ⟨i, h2⟩).weights
                  = true
              ∧ allcloseB
                  (([(⟨.raw, [0], [1], []⟩ : DOSData ℚ)]).get ⟨i, h1⟩).energies
                  (([(⟨.raw, [0], [1], []⟩ : DOSData ℚ)]).get ⟨i, h2⟩).energies
                  = true) :=
  c5_coll_eq_iff ⟨.generic, [⟨.raw, [0], [1], []⟩]⟩
    ⟨.rawK, [⟨.raw, [0], [1], []⟩]⟩

theorem get?_set_self {β : Type _} (l : List β) (i : ℕ) (x : β)
    (h : i < l.length) : (l.set i x).get? i = some x := by
  induction l generalizing i with
  | nil => simp at h
  | cons y ys ih =>
    cases i with
    | zero => rfl
    | succ n => exact ih n (by simpa using h)

theorem linspace_two : linspace (0 : ℚ) 1 2 = [0, 1] := by
  unfold linspace
  norm_num [List.range_succ]

theorem evenGridB_example : evenGridB ([0, 1] : List ℚ) = true := by
  unfold evenGridB
  rw [show (([0, 1] : List ℚ).headD 0) = 0 from rfl,
    show (([0, 1] : List ℚ).getLastD 0) = 1 from rfl,
    show ([0, 1] : List ℚ).length = 2 from rfl, linspace_two]
  exact allcloseB_refl _

theorem mkGridRef_ok_ref {es ws : List α} {r : ℕ} {e : DOSDataRef α}
    (h : mkGridRef es ws r = .ok e) : e.infoRef = r := by
  unfold mkGridRef at h
  cases es with
  | nil => cases h
  | cons e0 tl =>
    by_cases hg : evenGridB (e0 :: tl) = true
    · rw [if_pos hg] at h
      by_cases hl : ws.length = (e0 :: tl).length
      · rw [if_pos hl] at h
        cases h
        rfl
      · rw [if_neg hl] at h
        cases h
    · rw [if_neg hg] at h
      cases h

theorem gridGetItemH_example :
    gridGetItemH (⟨[0, 1], [[5, 6]], [0]⟩ : GridStoreRef ℚ) 0
      = .ok ⟨.grid, [0, 1], [5, 6], 0⟩ := by
  show mkGridRef ([0, 1] : List ℚ) [5, 6] 0 = _
  unfold mkGridRef
  simp [evenGridB_example]

/-- C2 counterexample: indexing the 1-row collection returns an entity
holding the collection's stored info reference; writing x = 1 through
that entity's info changes the collection's stored metadata from the
empty dict to x = 1, and re-reading the entity obtained by indexing the
same position afterwards exposes the modified info, not the original. -/
theorem c2_counterexample :
    gridGetItemH (⟨[0, 1], [[5, 6]], [0]⟩ : GridStoreRef ℚ) 0
      = .ok ⟨.grid, [0, 1], [5, 6], 0⟩
    ∧ heapSetItem [[]] 0 "x" "1" = [[("x", "1")]]
    ∧ readStoredInfo ([[]] : InfoHeap)
        (⟨[0, 1], [[5, 6]], [0]⟩ : GridStoreRef ℚ) 0 = some []
    ∧ readStoredInfo [[("x", "1")]]
        (⟨[0, 1], [[5, 6]], [0]⟩ : GridStoreRef ℚ) 0 = some [("x", "1")]
    ∧ readEntityInfo [[("x", "1")]]
        (⟨.grid, [0, 1], [5, 6], 0⟩ : DOSDataRef ℚ) = some [("x", "1")]
    ∧ (some [("x", "1")] : Option Info) ≠ some [] :=
  ⟨gridGetItemH_example, rfl, rfl, rfl, rfl, by decide⟩

/-- C2 (amended): indexing a GridDOSCollection synthesizes a fresh
GridDOSData around copied numeric data but the same stored info dict:
the returned entity's info reference is exactly the collection's stored
reference for that row, so a mutation through the extracted entity's
info rewrites the collection's stored metadata, and indexing the same
position again yields an entity exposing the modified info. -/
theorem c2_grid_getitem_shares_info (c : GridStoreRef α) (i : ℕ)
    (e : DOSDataRef α) (σ : InfoHeap) (k v : String)
    (hget : gridGetItemH c i = .ok e) (href : e.infoRef < σ.length) :
    c.infoRefs.get? i = some e.infoRef
    ∧ readStoredInfo (heapSetItem σ e.infoRef k v) c i
        = some (infoSet ((σ.get? e.infoRef).getD []) k v)
    ∧ gridGetItemH c i = .ok e
    ∧ readEntityInfo (heapSetItem σ e.infoRef k v) e
        = some (infoSet ((σ.get? e.infoRef).getD []) k v) := by
  have hr : c.infoRefs.get? i = some e.infoRef := by
    unfold gridGetItemH at hget
    cases hw : c.weights.get? i with
    | none => rw [hw] at hget; cases hget
    | some row =>
      cases hri : c.infoRefs.get? i with
      | none => rw [hw, hri] at hget; cases hget
      | some r =>
        rw [hw, hri] at hget
        rw [mkGridRef_ok_ref hget]
  have hcell : (heapSetItem σ e.infoRef k v).get? e.infoRef
      = some (infoSet ((σ.get? e.infoRef).getD []) k v) :=
    get?_set_self σ e.infoRef _ href
  refine ⟨hr, ?_, hget, ?_⟩
  · unfold readStoredInfo
    rw [hr]
    exact hcell
  · exact hcell

/-- Witness for the amended C2 theorem at the concrete 1-row rational
collection, a 1-cell heap holding the empty dict, and the write x = 1. -/
theorem c2_witness :
    (⟨[0, 1], [[5, 6]], [0]⟩ : GridStoreRef ℚ).infoRefs.get? 0 = some 0
    ∧ readStoredInfo (heapSetItem [[]] 0 "x" "1")
        (⟨[0, 1], [[5, 6]], [0]⟩ : GridStoreRef ℚ) 0
        = some (infoSet ((([[]] : InfoHeap).get? 0).getD []) "x" "1")
    ∧ gridGetItemH (⟨[0, 1], [[5, 6]], [0]⟩ : GridStoreRef ℚ) 0
        = .ok ⟨.grid, [0, 1], [5, 6], 0⟩
    ∧ readEntityInfo (heapSetItem [[]] 0 "x" "1")
        (⟨.grid, [0, 1], [5, 6], 0⟩ : DOSDataRef ℚ)
        = some (infoSet ((([[]] : InfoHeap).get? 0).getD []) "x" "1") :=
  c2_grid_getitem_shares_info ⟨[0, 1], [[5, 6]], [0]⟩ 0
    ⟨.grid, [0, 1], [5, 6], 0⟩ [[]] "x" "1" gridGetItemH_example
    (by decide)

theorem deltaE_ok (x : List ℝ) (x0 w : ℝ) (s : String)
    (hs : strLower s = "gauss") :
    deltaE x x0 w s
      = .ok (x.map fun xi =>
          Real.exp (-(1 / 2) * ((xi - x0) / w) ^ 2)
            / (Real.sqrt (2 * Real.pi) * w)) := by
  unfold deltaE
  rw [if_pos hs]

theorem checkPositiveWidth_ok (w : ℝ) (hw : 0 < w) :
    checkPositiveWidth w = .ok () := by
  unfold checkPositiveWidth
  rw [if_neg (not_le.mpr hw)]

theorem sampleLoop_ok (target : List ℝ) (w : ℝ) (s : String)
    (hs : strLower s = "gauss") (ps : List (ℝ × ℝ)) (acc : List ℝ)
    (hacc : acc.length = target.length) :
    ∃ r, sampleLoop target w s ps acc = .ok r
      ∧ r.length = target.length := by
  induction ps generalizing acc with
  | nil => exact ⟨acc, rfl, hacc⟩
  | cons p ps ih =>
    have hlen : (List.zipWith (fun a b => a + p.2 * b) acc
        (target.map fun xi =>
          Real.exp (-(1 / 2) * ((xi - p.1) / w) ^ 2)
            / (Real.sqrt (2 * Real.pi) * w))).length = target.length := by
      rw [List.length_zipWith, hacc, List.length_map]
      exact Nat.min_self _
    obtain ⟨r, hr, hrl⟩ := ih _ hlen
    refine ⟨r, ?_, hrl⟩
    rw [sampleLoop, deltaE_ok target p.1 w s hs]
    exact hr

theorem baseSample_ok (storedE storedW target : List ℝ) (w : ℝ)
    (s : String) (hw : 0 < w) (hs : strLower s = "gauss") :
    ∃ r, baseSample storedE storedW target w s = .ok r
      ∧ r.length = target.length := by
  unfold baseSample
  rw [checkPositiveWidth_ok w hw]
  exact sampleLoop_ok target w s hs (storedE.zip storedW) _
    (List.length_map _ _)

theorem entitySample_ok (d : DOSData ℝ) (target : List ℝ) (w : ℝ)
    (s : String) (hw : 0 < w) (hs : strLower s = "gauss")
    (hgrid : d.kind = .grid → 2 ≤ d.energies.length) :
    ∃ r, entitySample d target w s = .ok r
      ∧ r.length = target.length := by
  obtain ⟨k, es, ws, i⟩ := d
  cases k with
  | raw => exact baseSample_ok es ws target w s hw hs
  | grid =>
    have h2 := hgrid rfl
    match es, h2 with
    | e0 :: e1 :: rest, _ =>
      obtain ⟨base, hb, hbl⟩ := baseSample_ok (e0 :: e1 :: rest) ws target w s hw hs
      refine ⟨base.map (· * (e1 - e0)), ?_, by rw [List.length_map]; exact hbl⟩
      show (gridSampleFull (e0 :: e1 :: rest) ws target w s).map Prod.fst = _
      unfold gridSampleFull
      rw [hb]
      rfl

theorem collSample_ok (ds : List (DOSData ℝ)) (target : List ℝ) (w : ℝ)
    (s : String) (hw : 0 < w) (hs : strLower s = "gauss")
    (hgrid : ∀ d ∈ ds, d.kind = .grid → 2 ≤ d.energies.length) :
    ∃ rows, collSample ds target w s = .ok rows
      ∧ rows.length = ds.length
      ∧ ∀ i (h1 : i < ds.length) (h2 : i < rows.length),
          entitySample (ds.get ⟨i, h1⟩) target w s = .ok (rows.get ⟨i, h2⟩)
          ∧ (rows.get ⟨i, h2⟩).length = target.length := by
  induction ds with
  | nil => exact ⟨[], rfl, rfl, fun i h1 h2 => absurd h1 (Nat.not_lt_zero i)⟩
  | cons d ds ih =>
    obtain ⟨r, hr, hrl⟩ :=
      entitySample_ok d target w s hw hs (hgrid d (List.mem_cons_self d ds))
    obtain ⟨rows, hrows, hlen, hidx⟩ :=
      ih fun d2 hd2 => hgrid d2 (List.mem_cons_of_mem d hd2)
    refine ⟨r :: rows, ?_, by simp [hlen], ?_⟩
    · have hrows2 : mapME (fun e => entitySample e target w s) ds
          = Except.ok rows := hrows
      show mapME _ (d :: ds) = _
      rw [mapME, hr, hrows2]
      rfl
    · intro i h1 h2
      cases i with
      | zero => exact ⟨hr, hrl⟩
      | succ n => exact hidx n (by simpa using h1) (by simpa using h2)

/-- C1: for every collection holding at least one entity (each sampleable:
any grid entity has at least two stored points), every target energy
sequence, positive width and recognized smearing name, sample returns a
2-D array with one row per contained entity, each row of the target's
length, where row i is the result of entity i's own _sample. -/
theorem c1_collection_sample_rows (ds : List (DOSData ℝ)) (target : List ℝ)
    (w : ℝ) (s : String) (hne : 0 < ds.length) (hw : 0 < w)
    (hs : strLower s = "gauss")
    (hgrid : ∀ d ∈ ds, d.kind = .grid → 2 ≤ d.energies.length) :
    ∃ rows, collSample ds target w s = .ok rows
      ∧ rows.length = ds.length
      ∧ ∀ i (h1 : i < ds.length) (h2 : i < rows.length),
          entitySample (ds.get ⟨i, h1⟩) target w s = .ok (rows.get ⟨i, h2⟩)
          ∧ (rows.get ⟨i, h2⟩).length = target.length :=
  collSample_ok ds target w s hw hs hgrid

/-- Witness for C1 at a concrete 1-entity raw collection. -/
theorem c1_witness :
    ∃ rows, collSample [⟨.raw, [0], [1], []⟩] [0] 1 "Gauss" = .ok rows
      ∧ rows.length = [(⟨.raw, [0], [1], []⟩ : DOSData ℝ)].length
      ∧ ∀ i (h1 : i < [(⟨.raw, [0], [1], []⟩ : DOSData ℝ)].length)
          (h2 : i < rows.length),
          entitySample ([(⟨.raw, [0], [1], []⟩ : DOSData ℝ)].get ⟨i, h1⟩)
              [0] 1 "Gauss" = .ok (rows.get ⟨i, h2⟩)
          ∧ (rows.get ⟨i, h2⟩).length = [(0 : ℝ)].length :=
  c1_collection_sample_rows [⟨.raw, [0], [1], []⟩] [0] 1 "Gauss"
    (by decide) (by norm_num) (by decide)
    (by
      intro d hd hk
      rw [List.mem_singleton] at hd
      subst hd
      cases hk)

/-- C8: for every GridDOSData stored on at least two grid points, every
positive width and recognized smearing name, _sample returns the
base-class broadened accumulation multiplied by the stored data's
original grid spacing (the difference between its first two energies),
and the non-fatal undersampling warning is emitted exactly when the
width is less than twice that spacing, with the same value still
computed and returned. -/
theorem c8_grid_sample_scaled (e0 e1 : ℝ) (rest ws target : List ℝ)
    (w : ℝ) (s : String) (i : Info) (hw : 0 < w)
    (hs : strLower s = "gauss") :
    ∃ base, baseSample (e0 :: e1 :: rest) ws target w s = .ok base
      ∧ gridSampleFull (e0 :: e1 :: rest) ws target w s
          = .ok (base.map (· * (e1 - e0)), decide (w < 2 * (e1 - e0)))
      ∧ entitySample ⟨.grid, e0 :: e1 :: rest, ws, i⟩ target w s
          = .ok (base.map (· * (e1 - e0))) := by
  obtain ⟨base, hb, hbl⟩ := baseSample_ok (e0 :: e1 :: rest) ws target w s hw hs
  have hfull : gridSampleFull (e0 :: e1 :: rest) ws target w s
      = .ok (base.map (· * (e1 - e0)), decide (w < 2 * (e1 - e0))) := by
    unfold gridSampleFull
    rw [hb]
    rfl
  refine ⟨base, hb, hfull, ?_⟩
  show (gridSampleFull (e0 :: e1 :: rest) ws target w s).map Prod.fst = _
  rw [hfull]
  rfl

/-- Witness for C8 at a concrete two-point grid. -/
theorem c8_witness :
    ∃ base, baseSample [0, 1] [1, 1] [0] 1 "Gauss" = .ok base
      ∧ gridSampleFull [0, 1] [1, 1] [0] 1 "Gauss"
          = .ok (base.map (· * ((1 : ℝ) - 0)), decide ((1 : ℝ) < 2 * (1 - 0)))
      ∧ entitySample ⟨.grid, [0, 1], [1, 1], []⟩ [0] 1 "Gauss"
          = .ok (base.map (· * ((1 : ℝ) - 0))) :=
  c8_grid_sample_scaled 0 1 [] [1, 1] [0] 1 "Gauss" [] (by norm_num)
    (by decide)

/-- C1 counterexample: a validly constructed 1-point GridDOSData is
accepted by the GridDOSData constructor, yet sampling a collection
containing it with a positive width and the recognized smearing name
raises IndexError (the grid spacing check reads the second stored
energy), so sample does not return a 2-D array for every collection of
valid entities. -/
theorem c1_counterexample :
    mkGrid ([0] : List ℝ) [1] [] = .ok ⟨.grid, [0], [1], []⟩
    ∧ collSample [⟨.grid, [0], [1], []⟩] [0] 1 "Gauss"
        = .error (.indexError "index 1 is out of bounds for axis 1")
    ∧ (0 : ℝ) < 1
    ∧ strLower "Gauss" = "gauss" := by
  have heven : evenGridB ([0] : List ℝ) = true := by
    unfold evenGridB
    exact allcloseB_refl _
  refine ⟨?_, rfl, by norm_num, by decide⟩
  unfold mkGrid
  rw [heven]
  rfl
